import Mathlib

/-!
Verification development for the fraudHub repository.

The repository ships a React frontend (`frontend/src`), an axios API client,
and documentation of a Python backend pipeline.  Frontend functions are
embedded directly from the JSX source.  The backend analytics engine
(`data_processor.py`) is not part of the source tree; the pieces of it that
the properties below need are modelled from the specification and are marked
as such in their doc comments.

Numeric values that the JavaScript code manipulates as floating-point numbers
are embedded as rationals (`ℚ`); the natural logarithm used by the external
composite score is threaded through as an explicit function parameter.
-/

/-! ## Risk colour classification (EntityList.jsx, EntityDetail.jsx, ClaimsTable.jsx) -/

namespace EntityList

/-- Embedded from `frontend/src/components/EntityList.jsx` lines 4-8. -/
def getRiskColor (score : ℚ) : String :=
  if score ≥ 85 then "risk-high"
  else if score ≥ 70 then "risk-medium"
  else "risk-low"

end EntityList

namespace EntityDetail

/-- Embedded from `frontend/src/components/EntityDetail.jsx` lines 74-78. -/
def getRiskColor (score : ℚ) : String :=
  if score ≥ 85 then "risk-high"
  else if score ≥ 70 then "risk-medium"
  else "risk-low"

end EntityDetail

namespace ClaimsTableDetail

/-- Embedded from the EntityDetail variant appended to
`frontend/src/components/ClaimsTable.jsx` lines 137-141. -/
def getRiskColor (score : ℚ) : String :=
  if score ≥ 85 then "risk-high"
  else if score ≥ 70 then "risk-medium"
  else "risk-low"

end ClaimsTableDetail

/-! ## Community fraud ratio (CommunityAnalysisTable.jsx) -/

/-- One row of the `communityMembers` prop of `CommunityAnalysisTable`. -/
structure Member where
  community_id : ℕ
  entity_name : String
  is_fraud : Bool
deriving DecidableEq, Repr

/-- One per-community accumulator entry of `getCommunityStats`
(the JS object `{ total, fraud }` keyed by `community_id`). -/
structure CommunityStat where
  cid : ℕ
  total : ℕ
  fraud : ℕ
deriving DecidableEq, Repr

/-- Lookup of a community id in the accumulated stats, mirroring
`stats[member.community_id]` access on the JS object. -/
def lookupStats : List CommunityStat → ℕ → Option CommunityStat
  | [], _ => none
  | s :: ss, cid => if s.cid = cid then some s else lookupStats ss cid

/-- One step of the `communityMembers.forEach` loop of `getCommunityStats`
(`CommunityAnalysisTable.jsx` lines 5-13): create the entry on first sight,
then increment `total`, and `fraud` when the member is flagged. -/
def addMember : List CommunityStat → Member → List CommunityStat
  | [], m => [⟨m.community_id, 1, if m.is_fraud then 1 else 0⟩]
  | s :: ss, m =>
    if s.cid = m.community_id then
      ⟨s.cid, s.total + 1, s.fraud + (if m.is_fraud then 1 else 0)⟩ :: ss
    else
      s :: addMember ss m

/-- Embedded from `frontend/src/components/CommunityAnalysisTable.jsx`
lines 3-17 (`getCommunityStats`). -/
def getCommunityStats (members : List Member) : List CommunityStat :=
  members.foldl addMember []

/-- Embedded from `frontend/src/components/CommunityAnalysisTable.jsx`
line 106: `const fraudRatio = stats ? (stats.fraud / stats.total) : 0`. -/
def fraudRatio (members : List Member) (cid : ℕ) : ℚ :=
  match lookupStats (getCommunityStats members) cid with
  | none => 0
  | some s => (s.fraud : ℚ) / (s.total : ℚ)

/-! ## Query parameters built by loadEntities (App.jsx) -/

/-- The filter state held by `App.jsx` (initialised at lines 14-20). -/
structure Filters where
  sort_by : String
  filter_status : String
  min_risk_score : ℚ
  entity_type : String
  search : String
deriving DecidableEq, Repr

/-- The query-parameter map `filterParams`; a field is `none` when the
corresponding key is absent from the JS object. -/
structure FilterParams where
  sort_by : Option String
  filter_status : Option String
  min_risk_score : Option ℚ
  entity_type : Option String
deriving DecidableEq, Repr

/-- Embedded from `frontend/src/App.jsx` lines 42-52: each key is added only
when its guard holds; JS string truthiness is the string being nonempty. -/
def buildFilterParams (f : Filters) : FilterParams where
  sort_by := if f.sort_by ≠ "" then some f.sort_by else none
  filter_status :=
    if f.filter_status ≠ "" ∧ f.filter_status ≠ "all" then some f.filter_status else none
  min_risk_score := if f.min_risk_score > 0 then some f.min_risk_score else none
  entity_type :=
    if f.entity_type ≠ "" ∧ f.entity_type ≠ "All Types" then some f.entity_type else none

/-! ## Client-side search filter (App.jsx) -/

/-- An entity row as rendered by the entity list; only the name matters to
the client-side search filter. -/
structure Entity where
  entity_name : String
  ensemble_score : ℚ
deriving DecidableEq, Repr

/-- Contiguous-substring test on character lists, the semantics of the JS
`String.prototype.includes`. -/
def containsSub : List Char → List Char → Bool
  | needle, [] => needle.isEmpty
  | needle, c :: rest => needle.isPrefixOf (c :: rest) || containsSub needle rest

/-- JS `hay.includes(needle)`. -/
def jsIncludes (hay needle : String) : Bool :=
  containsSub needle.toList hay.toList

/-- JS `s.trim()`: the string with leading and trailing whitespace removed. -/
def jsTrim (s : String) : String :=
  ⟨((s.toList.dropWhile Char.isWhitespace).reverse.dropWhile Char.isWhitespace).reverse⟩

/-- JS `s.toLowerCase()`: character-wise lower-casing. -/
def jsToLower (s : String) : String :=
  ⟨s.toList.map Char.toLower⟩

/-- Embedded from `frontend/src/App.jsx` lines 23-35
(`applyClientSideFilters`): when the search string is truthy and trims to a
nonempty string, keep the entities whose lower-cased name includes the
lower-cased search string; otherwise return the (copied) list unchanged. -/
def applyClientSideFilters (entitiesList : List Entity) (search : String) : List Entity :=
  if search ≠ "" ∧ jsTrim search ≠ "" then
    entitiesList.filter (fun e => jsIncludes (jsToLower e.entity_name) (jsToLower search))
  else
    entitiesList

/-! ## Ego-mode network filter (NetworkVisualization, appended to
CommunityAnalysisTable.jsx) -/

/-- A node of the exported network graph. -/
structure Node where
  id : String
deriving DecidableEq, Repr

/-- An edge of the exported network graph; endpoints are node ids. -/
structure Edge where
  source : String
  target : String
  weight : ℚ
deriving DecidableEq, Repr

/-- The network dataset served by the `/api/network-data` endpoint. -/
structure NetworkData where
  nodes : List Node
  edges : List Edge
deriving DecidableEq, Repr

/-- Membership in the `connectedNodeIds` set built by the ego-mode branch of
`filteredData` (`CommunityAnalysisTable.jsx` lines 437-450): the selected id
plus the opposite endpoint of every edge incident to it. -/
def connectedNodeIds (edges : List Edge) (sel : String) (x : String) : Bool :=
  x == sel ||
    edges.any (fun e => (e.source == sel && e.target == x) || (e.target == sel && e.source == x))

/-- Embedded from `CommunityAnalysisTable.jsx` lines 452-454: nodes kept by
the ego-mode filter. -/
def egoNodes (d : NetworkData) (sel : String) : List Node :=
  d.nodes.filter (fun n => connectedNodeIds d.edges sel n.id)

/-- Embedded from `CommunityAnalysisTable.jsx` lines 456-460: edges kept by
the ego-mode filter (both endpoints in `connectedNodeIds`). -/
def egoEdges (d : NetworkData) (sel : String) : List Edge :=
  d.edges.filter (fun e => connectedNodeIds d.edges sel e.source && connectedNodeIds d.edges sel e.target)

/-! ## External composite and ensemble scoring

Modelled from the spec: the Entity Aggregator lives in the backend
`data_processor.py`, which is not under the source tree; the definitions
below follow sections 4.5/4.6 of the specification word for word. -/

/-- Modelled from the spec: average of the external fraud scores of an
entity's associated claims; a claim with no external score contributes 0 to
the average, and an entity with zero associated claims averages to 0. -/
def avgScore (scores : List (Option ℚ)) : ℚ :=
  if scores.length = 0 then 0
  else (scores.map (fun o => o.getD 0)).sum / (scores.length : ℚ)

/-- Modelled from the spec: external composite score =
average(external fraud score of each associated claim) × ln(1 + claim count).
The natural logarithm the implementation would call is passed in as `log`. -/
def extComposite (log : ℚ → ℚ) (scores : List (Option ℚ)) : ℚ :=
  avgScore scores * log (1 + (scores.length : ℚ))

/-- Modelled from the spec: social-network score =
100 × (w_deg·degree + w_betw·betweenness + w_eig·eigenvector). -/
def socialNetworkScore (wDeg wBetw wEig deg betw eig : ℚ) : ℚ :=
  100 * (wDeg * deg + wBetw * betw + wEig * eig)

/-- Modelled from the spec: ensemble score =
100 × (w_social · social_network_score/100 + w_ext · min(external_composite, 1)). -/
def ensembleScore (wSocial wExt sns ext : ℚ) : ℚ :=
  100 * (wSocial * (sns / 100) + wExt * min ext 1)

/-! ## Connection building

Modelled from the spec: the Co-occurrence Graph Builder of `data_processor.py`
is not under the source tree; the definitions below follow section 4.2 and
the canonicalization invariant of section 3 (source < target lexicographically,
one record per unordered pair, weight = number of distinct claims where the
pair co-occurs). -/

/-- A Connection record (section 3 of the spec). -/
structure Conn where
  source : String
  target : String
  strength : ℕ
deriving DecidableEq, Repr

/-- Canonical form of an entity pair: lexicographically smaller name first. -/
def canonPair (a b : String) : String × String :=
  if a < b then (a, b) else (b, a)

/-- Canonical pairs of distinct entities appearing on one claim. -/
def claimPairs : List String → List (String × String)
  | [] => []
  | x :: xs =>
    xs.filterMap (fun y => if x = y then none else some (canonPair x y)) ++ claimPairs xs

/-- Modelled from the spec: the set of unordered entity pairs co-occurring on
some claim (the `processed_pairs` deduplication of the graph builder). -/
def connectionKeys (claims : List (List String)) : List (String × String) :=
  (claims.map (fun ents => claimPairs ents.dedup)).flatten.dedup

/-- Modelled from the spec: connection strength = count of claims where both
entities of the pair appear. -/
def pairStrength (claims : List (List String)) (p : String × String) : ℕ :=
  (claims.filter (fun ents => p.1 ∈ ents ∧ p.2 ∈ ents)).length

/-- Modelled from the spec: the Connection table produced by the graph
builder, one canonical record per co-occurring unordered pair. -/
def buildConnections (claims : List (List String)) : List Conn :=
  (connectionKeys claims).map (fun p => ⟨p.1, p.2, pairStrength claims p⟩)

/-! ## External Signal Loader

Modelled from the spec: the loader of `data_processor.py` is not under the
source tree; section 4.5 requires that an absent or unreadable source yields
simulated per-claim scores bounded in [0,1] and a run flag, surfaced to the
Aggregator output. -/

/-- One row of the external score table (claim number, score). -/
structure ExternalSignal where
  claim_number : String
  score : ℚ
deriving DecidableEq, Repr

/-- The loader's result: the score table plus the simulated-data run flag. -/
structure ExternalData where
  scores : List ExternalSignal
  simulated : Bool
deriving DecidableEq, Repr

/-- Modelled from the spec: a statistically plausible simulated score for the
i-th claim, a deterministic pseudo-random value in [0,1]. -/
def simulatedScore (i : ℕ) : ℚ :=
  (((i * 37 + 53) % 101 : ℕ) : ℚ) / 100

/-- Modelled from the spec: simulated score table, one row per claim. -/
def simulateExternalData (claimNumbers : List String) : List ExternalSignal :=
  claimNumbers.enum.map (fun p => ⟨p.2, simulatedScore p.1⟩)

/-- Modelled from the spec: the External Signal Loader; a present source is
passed through with the flag off, an absent source is replaced by simulated
data with the flag on. -/
def loadExternalSignals (source : Option (List ExternalSignal)) (claimNumbers : List String) :
    ExternalData :=
  match source with
  | some rows => ⟨rows, false⟩
  | none => ⟨simulateExternalData claimNumbers, true⟩

/-- Score of one claim number in the loaded table, `none` when absent. -/
def lookupScore : List ExternalSignal → String → Option ℚ
  | [], _ => none
  | s :: ss, cn => if s.claim_number = cn then some s.score else lookupScore ss cn

/-- The Aggregator output rows the claims need: per-entity composites plus
the surfaced simulated-data flag. -/
structure AggregatorOutput where
  usedSimulatedData : Bool
  composites : List (String × ℚ)
deriving Repr

/-- Modelled from the spec: the Entity Aggregator joins each entity's
associated claims with the loaded external scores and carries the loader's
simulated-data flag through to its output. -/
def aggregate (log : ℚ → ℚ) (ext : ExternalData)
    (entityClaims : List (String × List String)) : AggregatorOutput where
  usedSimulatedData := ext.simulated
  composites :=
    entityClaims.map (fun p => (p.1, extComposite log (p.2.map (lookupScore ext.scores))))

/-! ## Pipeline

Modelled from the spec: the full analytics pipeline of `data_processor.py`
is not under the source tree.  The definitions below assemble the modelled
stages — co-occurrence connections (section 4.2), k-clique percolation
communities (section 4.3) and degree centrality (section 4.4) — into one
pure batch function of the claim corpus. -/

/-- Entities appearing on some claim, in first-occurrence-derived order. -/
def graphNodes (claims : List (List String)) : List String :=
  claims.flatten.dedup

/-- Adjacency of the co-occurrence graph: distinct entities sharing a claim. -/
def adjacentB (claims : List (List String)) (a b : String) : Bool :=
  a != b && claims.any (fun ents => ents.contains a && ents.contains b)

/-- Clique test over the co-occurrence graph. -/
def isCliqueB (claims : List (List String)) : List String → Bool
  | [] => true
  | x :: xs => xs.all (fun y => adjacentB claims x y) && isCliqueB claims xs

/-- Maximal-clique test: a clique that no further graph node extends. -/
def isMaxCliqueB (claims : List (List String)) (s : List String) : Bool :=
  isCliqueB claims s &&
    (graphNodes claims).all (fun v => s.contains v || !(isCliqueB claims (v :: s)))

/-- Modelled from the spec: all maximal cliques of size ≥ k of the
co-occurrence graph. -/
def kCliques (claims : List (List String)) (k : ℕ) : List (List String) :=
  (graphNodes claims).sublists.filter (fun s => decide (k ≤ s.length) && isMaxCliqueB claims s)

/-- Overlap test of the clique-overlap graph: two cliques sharing at least
k−1 entities. -/
def cliqueOverlapB (k : ℕ) (c₁ c₂ : List String) : Bool :=
  decide (k - 1 ≤ (c₁.filter (fun x => c₂.contains x)).length)

/-- Insert one clique into the running component decomposition of the
clique-overlap graph, merging every component it touches. -/
def addClique (k : ℕ) (groups : List (List (List String))) (c : List String) :
    List (List (List String)) :=
  let touches := fun (g : List (List String)) => g.any (fun c₂ => cliqueOverlapB k c c₂)
  (c :: (groups.filter touches).flatten) :: groups.filter (fun g => !(touches g))

/-- Connected components of the clique-overlap graph. -/
def cliqueComponents (k : ℕ) (cs : List (List String)) : List (List (List String)) :=
  cs.foldl (addClique k) []

/-- Modelled from the spec: k-clique percolation communities — each connected
component of the clique-overlap graph, its member set being the union of the
entities of its cliques. -/
def communities (claims : List (List String)) (k : ℕ) : List (List String) :=
  (cliqueComponents k (kCliques claims k)).map (fun g => g.flatten.dedup)

/-- Modelled from the spec: degree centrality = neighbours / (N − 1), zero
when the graph has at most one node. -/
def degreeCentrality (claims : List (List String)) (e : String) : ℚ :=
  let ns := graphNodes claims
  if ns.length ≤ 1 then 0
  else ((ns.filter (fun v => adjacentB claims e v)).length : ℚ) / ((ns.length : ℚ) - 1)

/-- One pipeline run's outputs relevant to the determinism property. -/
structure PipelineResult where
  connections : List Conn
  communityMembers : List (List String)
  centrality : String → ℚ

/-- Modelled from the spec: one full batch run of the analytics pipeline on
an immutable claim corpus. -/
def pipeline (claims : List (List String)) : PipelineResult where
  connections := buildConnections claims
  communityMembers := communities claims 3
  centrality := fun e => degreeCentrality claims e

/-! ## Concrete sample inputs used to instantiate the theorems -/

/-- The scenario corpus of section 8 of the spec, as per-claim entity sets. -/
def demoClaims : List (List String) :=
  [["Lawyer B", "Dr. A"], ["Dr. A", "Lawyer B", "Business C"]]

/-- A concrete logarithm stand-in for instantiations. -/
def demoLog : ℚ → ℚ := id

/-- Sample community-member rows. -/
def demoMembers : List Member :=
  [⟨1, "Dr. A", true⟩, ⟨1, "Lawyer B", false⟩, ⟨2, "Business C", false⟩]

/-- Sample filter state (the initial state of `App.jsx`). -/
def demoFilters : Filters :=
  ⟨"ensemble_score", "all", 0, "All Types", ""⟩

/-- Sample entity rows. -/
def demoEntities : List Entity :=
  [⟨"Dr. A", 91⟩, ⟨"Lawyer B", 76⟩, ⟨"Business C", 40⟩]

/-- Sample network dataset. -/
def demoNet : NetworkData :=
  ⟨[⟨"A"⟩, ⟨"B"⟩, ⟨"C"⟩], [⟨"A", "B", 2⟩, ⟨"B", "C", 1⟩]⟩

/-- A one-claim corpus with its entity pair listed in reverse name order. -/
def demoPairClaims : List (List String) := [["B", "A"]]

/-- Spec-side count: member rows of a community (the denominator of the
spec's fraud ratio). -/
def communityTotal (members : List Member) (cid : ℕ) : ℕ :=
  (members.filter (fun m => m.community_id == cid)).length

/-- Spec-side count: member rows of a community flagged as confirmed fraud
(the numerator of the spec's fraud ratio). -/
def communityFraud (members : List Member) (cid : ℕ) : ℕ :=
  (members.filter (fun m => m.community_id == cid && m.is_fraud)).length

/-! ## Theorems -/

/-- C10: the three copies of `getRiskColor` (EntityList, EntityDetail, and
the EntityDetail variant appended to ClaimsTable.jsx) are extensionally
equal, returning "risk-high" exactly when the score is at least 85,
"risk-medium" exactly when it is at least 70 and below 85, and "risk-low"
exactly when it is below 70, so every score maps to exactly one class. -/
theorem risk_color_copies_agree (s : ℚ) :
    EntityList.getRiskColor s = EntityDetail.getRiskColor s ∧
    EntityDetail.getRiskColor s = ClaimsTableDetail.getRiskColor s ∧
    (EntityList.getRiskColor s = "risk-high" ↔ 85 ≤ s) ∧
    (EntityList.getRiskColor s = "risk-medium" ↔ 70 ≤ s ∧ s < 85) ∧
    (EntityList.getRiskColor s = "risk-low" ↔ s < 70) := by
  refine ⟨rfl, rfl, ?_, ?_, ?_⟩ <;>
    unfold EntityList.getRiskColor <;>
    split_ifs with h₁ h₂
  · exact iff_of_true rfl h₁
  · exact iff_of_false (by decide) h₁
  · exact iff_of_false (by decide) h₁
  · exact iff_of_false (by decide) (fun hc => absurd h₁ (not_le.mpr hc.2))
  · exact iff_of_true rfl ⟨h₂, not_le.mp h₁⟩
  · exact iff_of_false (by decide) (fun hc => h₂ hc.1)
  · exact iff_of_false (by decide) (fun hc => absurd h₁ (not_le.mpr (hc.trans_le (by norm_num))))
  · exact iff_of_false (by decide) (fun hc => absurd h₂ (not_le.mpr hc))
  · exact iff_of_true rfl (not_le.mp h₂)

/-- C1: the ensemble risk score follows the spec formula
100 × (w_social · sns/100 + w_ext · min(ext, 1)) with default weights
0.6/0.4; an entity with zero external signal and zero network centrality
scores exactly 0, and an entity with social-network score 100 and external
composite 1 scores exactly 100. -/
theorem ensemble_formula_and_bounds (sns ext : ℚ) (log : ℚ → ℚ)
    (scores : List (Option ℚ)) (hzero : ∀ o ∈ scores, o.getD 0 = 0) :
    ensembleScore (6/10) (4/10) sns ext = 100 * ((6/10) * (sns / 100) + (4/10) * min ext 1) ∧
    ensembleScore (6/10) (4/10) (socialNetworkScore (4/10) (3/10) (3/10) 0 0 0)
      (extComposite log scores) = 0 ∧
    ensembleScore (6/10) (4/10) 100 1 = 100 := by
  have hcomp : extComposite log scores = 0 := by
    have hsum : (scores.map (fun o => o.getD 0)).sum = 0 := by
      apply List.sum_eq_zero
      intro x hx
      rcases List.mem_map.mp hx with ⟨o, ho, rfl⟩
      exact hzero o ho
    unfold extComposite avgScore
    split_ifs with h
    · simp
    · rw [hsum]
      simp
  refine ⟨rfl, ?_, ?_⟩
  · rw [hcomp]
    unfold ensembleScore socialNetworkScore
    rw [min_eq_left (by norm_num : (0:ℚ) ≤ 1)]
    norm_num
  · unfold ensembleScore
    rw [min_self]
    norm_num

/-- C1 witness: the endpoint values at a concrete zero-signal score list. -/
theorem ensemble_formula_and_bounds_witness :
    ensembleScore (6/10) (4/10) (socialNetworkScore (4/10) (3/10) (3/10) 0 0 0)
      (extComposite demoLog [none, some 0]) = 0 ∧
    ensembleScore (6/10) (4/10) 100 1 = 100 :=
  ⟨(ensemble_formula_and_bounds 0 0 demoLog [none, some 0] (by decide)).2.1,
   (ensemble_formula_and_bounds 0 0 demoLog [none, some 0] (by decide)).2.2⟩

/-- C2: the external composite score equals the average of the per-claim
external scores (a claim with no score contributing 0) times log(1 + claim
count); zero associated claims give composite 0, and replacing every missing
score by an explicit 0 does not change the composite. -/
theorem external_composite_characterization (log : ℚ → ℚ) (scores : List (Option ℚ)) :
    extComposite log scores =
      ((scores.map (fun o => o.getD 0)).sum / (scores.length : ℚ)) *
        log (1 + (scores.length : ℚ)) ∧
    extComposite log [] = 0 ∧
    extComposite log (scores.map (fun o => some (o.getD 0))) = extComposite log scores := by
  refine ⟨?_, ?_, ?_⟩
  · unfold extComposite avgScore
    split_ifs with h
    · rw [List.length_eq_zero.mp h]
      simp
    · rfl
  · unfold extComposite avgScore
    simp
  · have hmap : (scores.map (fun o => some (o.getD 0))).map (fun o => o.getD 0) =
        scores.map (fun o => o.getD 0) := by
      rw [List.map_map]
      simp [Function.comp_def]
    unfold extComposite avgScore
    rw [List.length_map, hmap]

/-- C6: running the modelled pipeline twice on identical input yields
identical Connection records (hence identical weights), identical community
member sets, and per-entity centrality scores within tolerance 1e-6. -/
theorem pipeline_deterministic (i₁ i₂ : List (List String)) (h : i₁ = i₂) :
    (pipeline i₁).connections = (pipeline i₂).connections ∧
    (pipeline i₁).communityMembers = (pipeline i₂).communityMembers ∧
    ∀ e : String, |(pipeline i₁).centrality e - (pipeline i₂).centrality e| ≤ 1 / 1000000 := by
  subst h
  refine ⟨rfl, rfl, fun e => ?_⟩
  rw [sub_self, abs_zero]
  norm_num

/-- C6 witness: determinism instantiated at the scenario corpus. -/
theorem pipeline_deterministic_witness :
    (pipeline demoClaims).connections = (pipeline demoClaims).connections ∧
    |(pipeline demoClaims).centrality "Dr. A" - (pipeline demoClaims).centrality "Dr. A"| ≤
      1 / 1000000 :=
  ⟨(pipeline_deterministic demoClaims demoClaims rfl).1,
   (pipeline_deterministic demoClaims demoClaims rfl).2.2 "Dr. A"⟩

/-- C7: for every filter state (with the status and type strings coming from
the UI's non-empty option sets), the query-parameter map contains `sort_by`
whenever it is set, `filter_status` exactly when the selected status is not
"all", `min_risk_score` exactly when the minimum risk score is positive, and
`entity_type` exactly when the selected type is not "All Types". -/
theorem load_entities_filter_params (f : Filters)
    (hstatus : f.filter_status ≠ "") (htype : f.entity_type ≠ "") :
    (f.sort_by ≠ "" → (buildFilterParams f).sort_by = some f.sort_by) ∧
    ((buildFilterParams f).filter_status = some f.filter_status ↔ f.filter_status ≠ "all") ∧
    ((buildFilterParams f).min_risk_score = some f.min_risk_score ↔ 0 < f.min_risk_score) ∧
    ((buildFilterParams f).entity_type = some f.entity_type ↔ f.entity_type ≠ "All Types") := by
  simp only [buildFilterParams]
  refine ⟨fun hs => ?_, ?_, ?_, ?_⟩
  · rw [if_pos hs]
  · split_ifs with h
    · exact iff_of_true rfl h.2
    · push_neg at h
      exact iff_of_false (by simp) (fun hne => hne (h hstatus))
  · split_ifs with h
    · exact iff_of_true rfl h
    · exact iff_of_false (by simp) h
  · split_ifs with h
    · exact iff_of_true rfl h.2
    · push_neg at h
      exact iff_of_false (by simp) (fun hne => hne (h htype))

/-- C7 witness: the initial filter state of App.jsx. -/
theorem load_entities_filter_params_witness :
    (buildFilterParams demoFilters).sort_by = some demoFilters.sort_by ∧
    ((buildFilterParams demoFilters).min_risk_score = some demoFilters.min_risk_score ↔
      0 < demoFilters.min_risk_score) :=
  ⟨(load_entities_filter_params demoFilters (by decide) (by decide)).1 (by decide),
   (load_entities_filter_params demoFilters (by decide) (by decide)).2.2.1⟩

/-- C8: the client-side search filter returns a sublist of its input (so it
never adds, duplicates or reorders entities); it is the identity when the
search string trims to empty, and otherwise keeps exactly the entities whose
name contains the search string case-insensitively, with multiplicity. -/
theorem client_side_search_filter (entitiesList : List Entity) (search : String) :
    (applyClientSideFilters entitiesList search).Sublist entitiesList ∧
    (jsTrim search = "" → applyClientSideFilters entitiesList search = entitiesList) ∧
    (jsTrim search ≠ "" → ∀ e : Entity,
      (applyClientSideFilters entitiesList search).count e =
        if jsIncludes (jsToLower e.entity_name) (jsToLower search) then entitiesList.count e
        else 0) := by
  refine ⟨?_, ?_, ?_⟩
  · unfold applyClientSideFilters
    split_ifs with h
    · exact List.filter_sublist _
    · exact List.Sublist.refl _
  · intro ht
    unfold applyClientSideFilters
    rw [if_neg]
    intro hc
    exact hc.2 ht
  · intro ht e
    have hs : search ≠ "" := by
      intro h₀
      apply ht
      rw [h₀]
      rfl
    unfold applyClientSideFilters
    rw [if_pos ⟨hs, ht⟩]
    by_cases hin : jsIncludes (jsToLower e.entity_name) (jsToLower search) = true
    · rw [if_pos hin]
      exact List.count_filter hin
    · rw [if_neg hin]
      apply List.count_eq_zero.mpr
      intro hmem
      exact hin ((List.mem_filter.mp hmem).2)

/-- C8 witness: a whitespace-only search is the identity, and a real search
keeps a matching entity with its multiplicity. -/
theorem client_side_search_filter_witness :
    applyClientSideFilters demoEntities " " = demoEntities ∧
    (applyClientSideFilters demoEntities "dr").count ⟨"Dr. A", 91⟩ =
      if jsIncludes (jsToLower (Entity.mk "Dr. A" 91).entity_name) (jsToLower "dr") then
        demoEntities.count ⟨"Dr. A", 91⟩
      else 0 :=
  ⟨(client_side_search_filter demoEntities " ").2.1 (by decide),
   (client_side_search_filter demoEntities "dr").2.2 (by decide) ⟨"Dr. A", 91⟩⟩

/-- C5: with no external source present, the loader still returns a score
table (one row per claim), all simulated scores lie within [0,1], the run is
flagged as simulated, and the Aggregator output carries the flag. -/
theorem external_loader_fallback (claimNumbers : List String) (log : ℚ → ℚ)
    (entityClaims : List (String × List String)) :
    (loadExternalSignals none claimNumbers).simulated = true ∧
    (loadExternalSignals none claimNumbers).scores.length = claimNumbers.length ∧
    (∀ s ∈ (loadExternalSignals none claimNumbers).scores, 0 ≤ s.score ∧ s.score ≤ 1) ∧
    (aggregate log (loadExternalSignals none claimNumbers) entityClaims).usedSimulatedData =
      true := by
  refine ⟨rfl, ?_, ?_, rfl⟩
  · simp [loadExternalSignals, simulateExternalData]
  · intro s hs
    unfold loadExternalSignals simulateExternalData at hs
    rcases List.mem_map.mp hs with ⟨p, hp, rfl⟩
    constructor
    · unfold simulatedScore
      positivity
    · unfold simulatedScore
      rw [div_le_one (by norm_num)]
      have h : (p.1 * 37 + 53) % 101 < 101 := Nat.mod_lt _ (by norm_num)
      exact_mod_cast Nat.le_of_lt_succ h

/-- C5 witness: the fallback at a concrete pair of claim numbers. -/
theorem external_loader_fallback_witness :
    (loadExternalSignals none ["WC-2024-001", "WC-2024-002"]).simulated = true ∧
    (0 ≤ (ExternalSignal.mk "WC-2024-001" (simulatedScore 0)).score ∧
      (ExternalSignal.mk "WC-2024-001" (simulatedScore 0)).score ≤ 1) :=
  ⟨(external_loader_fallback ["WC-2024-001", "WC-2024-002"] demoLog []).1,
   (external_loader_fallback ["WC-2024-001", "WC-2024-002"] demoLog []).2.2.1
     ⟨"WC-2024-001", simulatedScore 0⟩
     (List.mem_map.mpr ⟨(0, "WC-2024-001"), by decide, rfl⟩)⟩

/-- C9: in ego mode, when the dataset's node list contains the selected
entity and covers every edge endpoint, the filtered node set is exactly the
selected entity plus its direct neighbours, and every kept edge has both
endpoints inside the filtered node set. -/
theorem ego_filter_edge_closed (d : NetworkData) (sel : String)
    (hsel : sel ∈ d.nodes.map Node.id)
    (hwf : ∀ e ∈ d.edges, e.source ∈ d.nodes.map Node.id ∧ e.target ∈ d.nodes.map Node.id) :
    (∀ x : String, x ∈ (egoNodes d sel).map Node.id ↔
      (x = sel ∨ ∃ e ∈ d.edges,
        (e.source = sel ∧ e.target = x) ∨ (e.target = sel ∧ e.source = x))) ∧
    (∀ e ∈ egoEdges d sel,
      e.source ∈ (egoNodes d sel).map Node.id ∧ e.target ∈ (egoNodes d sel).map Node.id) := by
  have hconn : ∀ x : String, connectedNodeIds d.edges sel x = true ↔
      (x = sel ∨ ∃ e ∈ d.edges,
        (e.source = sel ∧ e.target = x) ∨ (e.target = sel ∧ e.source = x)) := by
    intro x
    simp [connectedNodeIds]
  have hmemNodes : ∀ x : String, x ∈ (egoNodes d sel).map Node.id ↔
      (x ∈ d.nodes.map Node.id ∧ connectedNodeIds d.edges sel x = true) := by
    intro x
    unfold egoNodes
    constructor
    · intro hx
      rcases List.mem_map.mp hx with ⟨n, hn, rfl⟩
      have hfil := List.mem_filter.mp hn
      exact ⟨List.mem_map.mpr ⟨n, hfil.1, rfl⟩, hfil.2⟩
    · rintro ⟨hx, hc⟩
      rcases List.mem_map.mp hx with ⟨n, hn, rfl⟩
      exact List.mem_map.mpr ⟨n, List.mem_filter.mpr ⟨hn, hc⟩, rfl⟩
  refine ⟨fun x => ?_, fun e he => ?_⟩
  · rw [hmemNodes x]
    constructor
    · rintro ⟨-, hc⟩
      exact (hconn x).mp hc
    · intro hr
      refine ⟨?_, (hconn x).mpr hr⟩
      rcases hr with rfl | ⟨e, he, hcase⟩
      · exact hsel
      · rcases hcase with ⟨hsrc, htgt⟩ | ⟨htgt, hsrc⟩
        · exact htgt ▸ (hwf e he).2
        · exact hsrc ▸ (hwf e he).1
  · unfold egoEdges at he
    have hfil := List.mem_filter.mp he
    rw [Bool.and_eq_true] at hfil
    constructor
    · rw [hmemNodes e.source]
      exact ⟨(hwf e hfil.1).1, hfil.2.1⟩
    · rw [hmemNodes e.target]
      exact ⟨(hwf e hfil.1).2, hfil.2.2⟩

/-- C9 witness: the ego filter around node "A" of the sample network keeps
edge ("A","B") with both endpoints present. -/
theorem ego_filter_edge_closed_witness :
    (Edge.mk "A" "B" 2).source ∈ (egoNodes demoNet "A").map Node.id ∧
    (Edge.mk "A" "B" 2).target ∈ (egoNodes demoNet "A").map Node.id :=
  (ego_filter_edge_closed demoNet "A" (by decide) (by decide)).2 ⟨"A", "B", 2⟩ (by decide)

/-- Unfolding lemma: one `forEach` step against a first-match lookup. -/
theorem lookup_addMember (stats : List CommunityStat) (m : Member) (cid : ℕ) :
    lookupStats (addMember stats m) cid =
      if m.community_id = cid then
        match lookupStats stats cid with
        | none => some ⟨cid, 1, if m.is_fraud then 1 else 0⟩
        | some s => some ⟨s.cid, s.total + 1, s.fraud + (if m.is_fraud then 1 else 0)⟩
      else lookupStats stats cid := by
  induction stats with
  | nil =>
    by_cases h : m.community_id = cid
    · simp [addMember, lookupStats, h]
    · simp [addMember, lookupStats, h]
  | cons s ss ih =>
    by_cases hsm : s.cid = m.community_id
    · by_cases hmc : m.community_id = cid
      · have hsc : s.cid = cid := hsm.trans hmc
        simp [addMember, lookupStats, hsm, hmc, hsc]
      · have hsc : s.cid ≠ cid := fun h => hmc (hsm ▸ h)
        simp [addMember, lookupStats, hsm, hmc, hsc]
    · by_cases hsc : s.cid = cid
      · have hmc : m.community_id ≠ cid := fun h => hsm (hsc.trans h.symm)
        have hmc₂ : cid ≠ m.community_id := fun h => hmc h.symm
        simp [addMember, lookupStats, hsm, hsc, hmc, hmc₂]
      · simp [addMember, lookupStats, hsm, hsc, ih]

/-- Counting lemma for the denominator under a cons. -/
theorem communityTotal_cons (m : Member) (ms : List Member) (cid : ℕ) :
    communityTotal (m :: ms) cid =
      (if m.community_id = cid then 1 else 0) + communityTotal ms cid := by
  unfold communityTotal
  rw [List.filter_cons]
  by_cases h : m.community_id = cid <;> simp [h, Nat.add_comm]

/-- Counting lemma for the numerator under a cons. -/
theorem communityFraud_cons (m : Member) (ms : List Member) (cid : ℕ) :
    communityFraud (m :: ms) cid =
      (if m.community_id = cid ∧ m.is_fraud = true then 1 else 0) + communityFraud ms cid := by
  unfold communityFraud
  rw [List.filter_cons]
  by_cases h₁ : m.community_id = cid <;> by_cases h₂ : m.is_fraud = true <;>
    simp [h₁, h₂, Nat.add_comm]

/-- The fraud count never exceeds the member count. -/
theorem communityFraud_le_total (members : List Member) (cid : ℕ) :
    communityFraud members cid ≤ communityTotal members cid := by
  induction members with
  | nil => exact Nat.le_refl 0
  | cons m ms ih =>
    rw [communityFraud_cons, communityTotal_cons]
    by_cases h₁ : m.community_id = cid <;> by_cases h₂ : m.is_fraud = true <;>
      simp [h₁, h₂] <;> omega

/-- The whole `forEach` fold computes the per-community counts. -/
theorem lookup_foldl (members : List Member) (acc : List CommunityStat) (cid : ℕ) :
    lookupStats (members.foldl addMember acc) cid =
      match lookupStats acc cid with
      | none =>
        if communityTotal members cid = 0 then none
        else some ⟨cid, communityTotal members cid, communityFraud members cid⟩
      | some s =>
        some ⟨s.cid, s.total + communityTotal members cid,
              s.fraud + communityFraud members cid⟩ := by
  induction members generalizing acc with
  | nil =>
    simp only [List.foldl_nil]
    cases hacc : lookupStats acc cid <;> simp [communityTotal, communityFraud]
  | cons m ms ih =>
    rw [List.foldl_cons, ih (addMember acc m), lookup_addMember]
    by_cases hmc : m.community_id = cid
    · rw [if_pos hmc]
      cases hacc : lookupStats acc cid <;>
        (simp [communityTotal_cons, communityFraud_cons, hmc]; try omega)
    · rw [if_neg hmc]
      cases hacc : lookupStats acc cid <;>
        simp [communityTotal_cons, communityFraud_cons, hmc]

/-- C3: the displayed fraud ratio of a community equals the number of its
member rows flagged as confirmed fraud divided by its total member rows, and
a community with no member rows displays 0 rather than an error. -/
theorem community_fraud_ratio_correct (members : List Member) (cid : ℕ) :
    fraudRatio members cid =
      (communityFraud members cid : ℚ) / (communityTotal members cid : ℚ) ∧
    (communityTotal members cid = 0 → fraudRatio members cid = 0) := by
  have h := lookup_foldl members [] cid
  rw [show lookupStats [] cid = none from rfl] at h
  unfold fraudRatio getCommunityStats
  rw [h]
  by_cases hz : communityTotal members cid = 0
  · rw [if_pos hz]
    have hf : communityFraud members cid = 0 :=
      Nat.le_zero.mp (hz ▸ communityFraud_le_total members cid)
    rw [hz, hf]
    exact ⟨by simp, fun _ => rfl⟩
  · rw [if_neg hz]
    exact ⟨rfl, fun hc => absurd hc hz⟩

/-- C3 witness: the sample member rows at a populated and at an empty
community id. -/
theorem community_fraud_ratio_correct_witness :
    fraudRatio demoMembers 1 =
      (communityFraud demoMembers 1 : ℚ) / (communityTotal demoMembers 1 : ℚ) ∧
    fraudRatio demoMembers 7 = 0 :=
  ⟨(community_fraud_ratio_correct demoMembers 1).1,
   (community_fraud_ratio_correct demoMembers 7).2 (by decide)⟩

/-- A canonical pair of distinct names is strictly ordered. -/
theorem canonPair_lt {a b : String} (h : a ≠ b) :
    (canonPair a b).1 < (canonPair a b).2 := by
  unfold canonPair
  split_ifs with hlt
  · exact hlt
  · exact lt_of_le_of_ne (not_lt.mp hlt) (Ne.symm h)

/-- Every pair produced from one claim is canonical. -/
theorem claimPairs_canonical : ∀ (l : List String), ∀ p ∈ claimPairs l, p.1 < p.2 := by
  intro l
  induction l with
  | nil => intro p hp; simp [claimPairs] at hp
  | cons x xs ih =>
    intro p hp
    rw [show claimPairs (x :: xs) =
        xs.filterMap (fun y => if x = y then none else some (canonPair x y)) ++ claimPairs xs
      from rfl] at hp
    rcases List.mem_append.mp hp with h | h
    · rcases List.mem_filterMap.mp h with ⟨y, _, hxy⟩
      by_cases hx : x = y
      · rw [if_pos hx] at hxy
        exact absurd hxy (by simp)
      · rw [if_neg hx] at hxy
        rw [← Option.some_inj.mp hxy]
        exact canonPair_lt hx
    · exact ih p h

/-- Every connection key is canonical. -/
theorem connectionKeys_canonical (claims : List (List String)) :
    ∀ p ∈ connectionKeys claims, p.1 < p.2 := by
  intro p hp
  unfold connectionKeys at hp
  rcases List.mem_flatten.mp (List.mem_dedup.mp hp) with ⟨l, hl, hpl⟩
  rcases List.mem_map.mp hl with ⟨ents, _, rfl⟩
  exact claimPairs_canonical _ p hpl

/-- C4: the Connection table is canonical and duplicate-free — every record
has source lexicographically below target (so no self connections), the list
of (source, target) keys has no duplicates, and two records covering the
same unordered entity pair are the same record. -/
theorem connections_canonical_unique (claims : List (List String)) :
    (∀ c ∈ buildConnections claims, c.source < c.target ∧ c.source ≠ c.target) ∧
    ((buildConnections claims).map (fun c => (c.source, c.target))).Nodup ∧
    (∀ c₁ ∈ buildConnections claims, ∀ c₂ ∈ buildConnections claims,
      (c₁.source = c₂.source ∧ c₁.target = c₂.target) ∨
        (c₁.source = c₂.target ∧ c₁.target = c₂.source) → c₁ = c₂) := by
  have hkeys : ∀ c ∈ buildConnections claims,
      (c.source, c.target) ∈ connectionKeys claims ∧
        c = ⟨c.source, c.target, pairStrength claims (c.source, c.target)⟩ := by
    intro c hc
    rcases List.mem_map.mp hc with ⟨p, hp, rfl⟩
    exact ⟨hp, rfl⟩
  have hcanon : ∀ c ∈ buildConnections claims, c.source < c.target := by
    intro c hc
    exact connectionKeys_canonical claims _ (hkeys c hc).1
  have hmap : (buildConnections claims).map (fun c => (c.source, c.target)) =
      connectionKeys claims := by
    unfold buildConnections
    rw [List.map_map]
    exact List.map_id'' (fun p => rfl) _
  refine ⟨fun c hc => ⟨hcanon c hc, ne_of_lt (hcanon c hc)⟩, ?_, ?_⟩
  · rw [hmap]
    exact List.nodup_dedup _
  · intro c₁ h₁ c₂ h₂ hcase
    have hkey : c₁.source = c₂.source ∧ c₁.target = c₂.target := by
      rcases hcase with h | ⟨hst, hts⟩
      · exact h
      · exact absurd ((hst ▸ hts ▸ hcanon c₁ h₁ : c₂.target < c₂.source))
          (not_lt.mpr (le_of_lt (hcanon c₂ h₂)))
    rw [(hkeys c₁ h₁).2, (hkeys c₂ h₂).2, hkey.1, hkey.2]

/-- C4 witness: the one-claim corpus yields a single canonical record. -/
theorem connections_canonical_unique_witness :
    (Conn.mk "A" "B" 1).source < (Conn.mk "A" "B" 1).target ∧
    (Conn.mk "A" "B" 1).source ≠ (Conn.mk "A" "B" 1).target ∧
    ((buildConnections demoPairClaims).map (fun c => (c.source, c.target))).Nodup := by
  have hBA : ¬ (("B" : String) < "A") := by
    rw [String.lt_iff_toList_lt]
    decide
  have hcp : canonPair "B" "A" = ("A", "B") := by
    unfold canonPair
    rw [if_neg hBA]
  have hstr : pairStrength demoPairClaims ("A", "B") = 1 := by decide
  have hkey : ("A", "B") ∈ connectionKeys demoPairClaims := by
    unfold connectionKeys
    rw [List.mem_dedup]
    apply List.mem_flatten.mpr
    refine ⟨claimPairs (["B", "A"] : List String).dedup, ?_, ?_⟩
    · exact List.mem_map.mpr ⟨["B", "A"], by decide, rfl⟩
    · have hd : (["B", "A"] : List String).dedup = ["B", "A"] := by decide
      have hcl : claimPairs (["B", "A"] : List String) = [canonPair "B" "A"] := rfl
      rw [hd, hcl, hcp]
      exact List.mem_singleton.mpr rfl
  have hmem : (Conn.mk "A" "B" 1) ∈ buildConnections demoPairClaims := by
    unfold buildConnections
    refine List.mem_map.mpr ⟨("A", "B"), hkey, ?_⟩
    exact congrArg (fun n => Conn.mk "A" "B" n) hstr
  have h := connections_canonical_unique demoPairClaims
  exact ⟨(h.1 _ hmem).1, (h.1 _ hmem).2, h.2.1⟩
